import Mathlib

/-!
Shallow embedding of the `mastering-golang` teaching repository.

Go `int` is modelled by Lean `Int`; the Go truncating integer division
`/` and remainder `%` are modelled by `Int.tdiv` and `Int.tmod` (both round
toward zero, exactly as Go does).  Fallible code returns `Option`; a Go
runtime panic is modelled by `none`.  Stateful demonstrations are modelled
by explicit state passing.
-/

/-! ## basics/operators.go -/

/-- `AllOperations` from `basics/operators.go`: computes sum, difference,
product, quotient and remainder of `x` and `y`.  The quotient `x / y`
panics in Go when `y = 0`, which the embedding models with `none`. -/
def AllOperations (x y : Int) : Option (Int × Int × Int × Int × Int) :=
  let sum := x + y
  let difference := x - y
  let product := x * y
  if y = 0 then none
  else
    let quotient := x.tdiv y
    let remainder := x.tmod y
    some (sum, difference, product, quotient, remainder)

/-! ## functions package (part_005): `CalculateWithError`,
`FunctionWithMultipleReturns`, `RecursiveFactorial`, `Closure`,
`DemonstrateScope`, `Calculator` -/

/-- `CalculateWithError` from the functions package: a Go `switch` over
the operation string; returns the result together with an optional error
message (`none` models the Go `nil` error). -/
def CalculateWithError (a b : Int) (operation : String) : Int × Option String :=
  if operation = "add" then (a + b, none)
  else if operation = "subtract" then (a - b, none)
  else if operation = "multiply" then (a * b, none)
  else if operation = "divide" then
    if b = 0 then (0, some ("division by zero"))
    else (a.tdiv b, none)
  else (0, some ("unknown operation: " ++ operation))

/-- `FunctionWithMultipleReturns` from the functions package: quotient and
remainder of Go integer division, with the `(0, 0)` guard for a zero
divisor. -/
def FunctionWithMultipleReturns (dividend divisor : Int) : Int × Int :=
  if divisor = 0 then (0, 0)
  else (dividend.tdiv divisor, dividend.tmod divisor)

/-- `RecursiveFactorial` from the functions package: base case `n ≤ 1`,
recursive case `n * RecursiveFactorial (n-1)`. -/
def RecursiveFactorial (n : Int) : Int :=
  if n ≤ 1 then 1
  else n * RecursiveFactorial (n - 1)
termination_by n.toNat
decreasing_by
  simp_wf
  omega

/-- The closure returned by `Closure` captures a local `count` initialised
to `0`; this is that initial captured state. -/
def closureInit : Int := 0

/-- One invocation of the function returned by `Closure`: `count++` followed
by `return count`.  Takes the captured `count`, returns the value handed
back to the caller together with the updated captured state. -/
def closureCall (count : Int) : Int × Int := (count + 1, count + 1)

/-- Captured state of a single counter after `n` invocations. -/
def closureState : Nat → Int
  | 0 => closureInit
  | n + 1 => (closureCall (closureState n)).2

/-- Value returned by invocation number `n + 1` of a single counter. -/
def closureReturn (n : Nat) : Int := (closureCall (closureState n)).1

/-- An event in an interleaved use of two separately constructed counters:
which of the two counters is invoked. -/
inductive CounterCall where
  | one : CounterCall
  | two : CounterCall

/-- Number of invocations of the first counter in a trace. -/
def countOnes : List CounterCall → Nat
  | [] => 0
  | CounterCall.one :: t => countOnes t + 1
  | CounterCall.two :: t => countOnes t

/-- Number of invocations of the second counter in a trace. -/
def countTwos : List CounterCall → Nat
  | [] => 0
  | CounterCall.one :: t => countTwos t
  | CounterCall.two :: t => countTwos t + 1

/-- Run an interleaved trace of invocations against the pair of captured
states of two independently constructed counters. -/
def runPair : List CounterCall → Int × Int → Int × Int
  | [], s => s
  | CounterCall.one :: t, (c1, c2) => runPair t ((closureCall c1).2, c2)
  | CounterCall.two :: t, (c1, c2) => runPair t (c1, (closureCall c2).2)

/-- Package-level mutable state of the functions package: the exported
`GlobalCounter` and the unexported `globalMessage`. -/
structure FunctionsPkgState where
  GlobalCounter : Int
  globalMessage : String
  deriving Repr, DecidableEq

/-- Initial package state, as declared at package level. -/
def functionsPkgInit : FunctionsPkgState :=
  { GlobalCounter := 0
    globalMessage := "This is a package-level variable" }

/-- `DemonstrateScope`: increments `GlobalCounter`; the later assignment
`globalMessage := ...` inside the body declares a fresh local variable
that shadows the package-level one, so the package-level string is never
written. -/
def DemonstrateScope (s : FunctionsPkgState) : FunctionsPkgState :=
  let s := { s with GlobalCounter := s.GlobalCounter + 1 }
  s

/-- Package state after `n` successive calls to `DemonstrateScope`,
starting from the package initialisation. -/
def runDemonstrateScope : Nat → FunctionsPkgState
  | 0 => functionsPkgInit
  | n + 1 => DemonstrateScope (runDemonstrateScope n)

/-- The `Calculator` struct from the functions package. -/
structure Calculator where
  LastResult : Int
  deriving Repr, DecidableEq

/-- Shared body of the `Add` and `AddAndStore` methods: compute
`result := a + b`, write it into the receiver, and return it; the two
methods differ only in whether the receiver is a copy or a pointer. -/
def calculatorAddBody (c : Calculator) (a b : Int) : Int × Calculator :=
  let result := a + b
  (result, { c with LastResult := result })

/-- `Add` has a value receiver: the body runs on a copy of the struct, so
the write to `LastResult` is lost and the caller keeps its struct. -/
def Calculator.Add (c : Calculator) (a b : Int) : Int × Calculator :=
  ((calculatorAddBody c a b).1, c)

/-- `AddAndStore` has a pointer receiver: the write to `LastResult`
reaches the struct of the caller. -/
def Calculator.AddAndStore (c : Calculator) (a b : Int) : Int × Calculator :=
  calculatorAddBody c a b

/-- `GetLastResult` getter. -/
def Calculator.GetLastResult (c : Calculator) : Int := c.LastResult

/-! ## collections package (part_004): array value semantics

A Go array of fixed length is modelled by a `List Int`; assigning an
array to a new variable, or passing it to a function, copies the whole
value, which the embedding makes explicit in the call wrappers. -/

/-- The `primes` array from `ArrayBasics`. -/
def arrayBasicsPrimes : List Int := [2, 3, 5, 7, 11]

/-- The copy-then-mutate fragment of `ArrayBasics`:
`copyOfPrimes := primes; copyOfPrimes[0] = 100`.  Returns the final
values of `(primes, copyOfPrimes)`. -/
def arrayBasicsCopyDemo : List Int × List Int :=
  let primes := arrayBasicsPrimes
  let copyOfPrimes := primes
  let copyOfPrimes := copyOfPrimes.set 0 100
  (primes, copyOfPrimes)

/-- Shared body of `modifyArrayCopy` and `modifyArrayPointer`:
`arr[0] = 999`. -/
def modifyArrayBody (arr : List Int) : List Int := arr.set 0 999

/-- Calling `modifyArrayCopy(caller)`: the callee receives a copy of the
array, mutates the copy, and the copy is discarded on return, so the
value the caller observes afterwards is its original array. -/
def afterModifyArrayCopyCall (caller : List Int) : List Int :=
  let _calleeCopy := modifyArrayBody caller
  caller

/-- Calling `modifyArrayPointer(&caller)`: the callee writes through the
pointer, so the write to element 0 lands in the array of the caller. -/
def afterModifyArrayPointerCall (caller : List Int) : List Int :=
  modifyArrayBody caller

/-! ## loops/loops.go: `RangeOverChannel` -/

/-- A Go channel of `int`: the buffered values in FIFO order and the
closed flag. -/
structure GoChan where
  buf : List Int
  closed : Bool
  deriving Repr, DecidableEq

/-- The capacity of the buffered channel `make(chan int, 5)`. -/
def chanCap : Nat := 5

/-- Sending a value appends it at the back of the FIFO buffer. -/
def chanSend (c : GoChan) (v : Int) : GoChan := { c with buf := c.buf ++ [v] }

/-- `close(numbers)`. -/
def chanClose (c : GoChan) : GoChan := { c with closed := true }

/-- The freshly made channel: empty buffer, not closed. -/
def chanInit : GoChan := { buf := [], closed := false }

/-- The values the producer goroutine sends, in order: `i * 10` for
`i := 1; i <= 5; i++`. -/
def producerSends : List Int := (List.range 5).map (fun i => ((i : Nat) + 1) * 10)

/-- Channel state after the producer goroutine has run: all five sends
followed by `close(numbers)`. -/
def afterProducer : GoChan := chanClose (producerSends.foldl chanSend chanInit)

/-- The consumer loop `for num := range numbers`: on a closed channel it
receives the buffered values in FIFO order and terminates; on a channel
that is never closed it would block forever, modelled by `none`. -/
def rangeRecv (c : GoChan) : Option (List Int) :=
  if c.closed then some c.buf else none

/-- `RangeOverChannel`: the values the consumer receives in the demo. -/
def RangeOverChannel : Option (List Int) := rangeRecv afterProducer

/-! ## Helper lemmas -/

/-- The Go `%` in terms of the Go `/`: the remainder is the dividend minus the
truncated quotient times the divisor. -/
theorem tmod_eq_sub_tdiv_mul (a b : Int) : a.tmod b = a - a.tdiv b * b := by
  have h := Int.tmod_add_tdiv a b
  linear_combination h

/-- The captured state of a single counter after `n` invocations is `n`. -/
theorem closureState_eq (n : Nat) : closureState n = (n : Int) := by
  induction n with
  | zero => simp [closureState, closureInit]
  | succ n ih =>
    simp only [closureState, closureCall, ih]
    push_cast
    ring

/-- Running an interleaved trace adds to each captured state exactly the
number of invocations of that same counter in the trace. -/
theorem runPair_eq (t : List CounterCall) (c1 c2 : Int) :
    runPair t (c1, c2) = (c1 + (countOnes t : Int), c2 + (countTwos t : Int)) := by
  induction t generalizing c1 c2 with
  | nil => simp [runPair, countOnes, countTwos]
  | cons hd tl ih =>
    cases hd
    · simp only [runPair, countOnes, countTwos, closureCall, ih, Prod.mk.injEq]
      constructor <;> push_cast <;> omega
    · simp only [runPair, countOnes, countTwos, closureCall, ih, Prod.mk.injEq]
      constructor <;> push_cast <;> omega

/-- Folding sends over a channel appends the sent values in order. -/
theorem foldl_chanSend_buf (l : List Int) (c : GoChan) :
    (l.foldl chanSend c).buf = c.buf ++ l := by
  induction l generalizing c with
  | nil => simp
  | cons h t ih => simp [List.foldl, chanSend, ih]

/-- `RecursiveFactorial` agrees with `Nat.factorial` on natural inputs. -/
theorem recursiveFactorial_nat (k : Nat) :
    RecursiveFactorial (k : Int) = (Nat.factorial k : Int) := by
  induction k with
  | zero => rw [RecursiveFactorial]; norm_num [Nat.factorial]
  | succ k ih =>
    rw [RecursiveFactorial]
    by_cases hk : k = 0
    · subst hk; norm_num [Nat.factorial]
    · have h1 : ¬ (((k + 1 : Nat) : Int) ≤ 1) := by
        have : 1 ≤ k := Nat.one_le_iff_ne_zero.mpr hk
        push_cast
        omega
      rw [if_neg h1]
      have h2 : ((k + 1 : Nat) : Int) - 1 = (k : Int) := by push_cast; ring
      rw [h2, ih]
      push_cast [Nat.factorial_succ]
      ring

/-! ## Claim theorems -/

/-- C1: `CalculateWithError(a, b, operation)` returns a non-nil error
exactly when the operation is "divide" with `b = 0` (error text
"division by zero") or the operation is unknown (error text
"unknown operation: " followed by the operation); every error case
returns the int 0, and every non-error case returns the corresponding
arithmetic result with a nil error. -/
theorem calculateWithError_spec (a b : Int) (op : String) :
    ((CalculateWithError a b op).2 ≠ none ↔
        (op = "divide" ∧ b = 0)
          ∨ (op ≠ "add" ∧ op ≠ "subtract" ∧ op ≠ "multiply" ∧ op ≠ "divide"))
    ∧ ((CalculateWithError a b op).2 ≠ none → (CalculateWithError a b op).1 = 0)
    ∧ (op = "add" → CalculateWithError a b op = (a + b, none))
    ∧ (op = "subtract" → CalculateWithError a b op = (a - b, none))
    ∧ (op = "multiply" → CalculateWithError a b op = (a * b, none))
    ∧ (op = "divide" → b ≠ 0 → CalculateWithError a b op = (a.tdiv b, none))
    ∧ (op = "divide" → b = 0 →
        CalculateWithError a b op = (0, some ("division by zero")))
    ∧ (op ≠ "add" → op ≠ "subtract" → op ≠ "multiply" → op ≠ "divide" →
        CalculateWithError a b op = (0, some ("unknown operation: " ++ op))) := by
  unfold CalculateWithError
  by_cases h1 : op = "add" <;> by_cases h2 : op = "subtract" <;>
    by_cases h3 : op = "multiply" <;> by_cases h4 : op = "divide" <;>
    by_cases h5 : b = 0 <;>
    simp_all

/-- C1 witness: the theorem applied at concrete inputs. -/
theorem calculateWithError_witness :
    CalculateWithError 10 0 "divide" = (0, some ("division by zero"))
    ∧ CalculateWithError 10 5 "add" = (15, none) := by
  constructor
  · exact (calculateWithError_spec 10 0 "divide").2.2.2.2.2.2.1 rfl rfl
  · have h := (calculateWithError_spec 10 5 "add").2.2.1 rfl
    rw [h]
    decide

/-- C2: for a non-zero divisor, `FunctionWithMultipleReturns` returns the
truncated quotient `q` of Go integer division together with the remainder
`r = dividend - q * divisor`; for divisor 0 it returns `(0, 0)`. -/
theorem functionWithMultipleReturns_spec (dividend divisor : Int) :
    (divisor ≠ 0 →
        FunctionWithMultipleReturns dividend divisor =
          (dividend.tdiv divisor, dividend - dividend.tdiv divisor * divisor))
    ∧ FunctionWithMultipleReturns dividend 0 = (0, 0) := by
  constructor
  · intro h
    simp [FunctionWithMultipleReturns, h, tmod_eq_sub_tdiv_mul]
  · simp [FunctionWithMultipleReturns]

/-- C2 witness: the theorem applied at `(17, 5)` and `(10, 0)`. -/
theorem functionWithMultipleReturns_witness :
    FunctionWithMultipleReturns 17 5 = (3, 2)
    ∧ FunctionWithMultipleReturns 10 0 = (0, 0) := by
  constructor
  · have h := (functionWithMultipleReturns_spec 17 5).1 (by decide)
    rw [h]
    decide
  · exact (functionWithMultipleReturns_spec 10 0).2

/-- C3: a counter made by `Closure` starts from internal count 0 and its
n-th invocation returns n (stated as: invocation number `n + 1` returns
`n + 1`), so successive values strictly increase; and in any interleaved
trace of invocations of two separately constructed counters, each
captured state depends only on the invocations of that same counter, so each
next return value of each counter is one more than its own invocation count,
whatever the other counter did. -/
theorem closure_spec :
    (∀ n : Nat, closureReturn n = (n : Int) + 1)
    ∧ (∀ n : Nat, closureReturn n < closureReturn (n + 1))
    ∧ (∀ t : List CounterCall,
        runPair t (closureInit, closureInit) =
          ((countOnes t : Int), (countTwos t : Int)))
    ∧ (∀ t : List CounterCall,
        (closureCall (runPair t (closureInit, closureInit)).1).1 =
            (countOnes t : Int) + 1
        ∧ (closureCall (runPair t (closureInit, closureInit)).2).1 =
            (countTwos t : Int) + 1) := by
  have hret : ∀ n : Nat, closureReturn n = (n : Int) + 1 := by
    intro n
    simp [closureReturn, closureCall, closureState_eq]
  have hrun : ∀ t : List CounterCall,
      runPair t (closureInit, closureInit) =
        ((countOnes t : Int), (countTwos t : Int)) := by
    intro t
    rw [closureInit, runPair_eq]
    simp
  refine ⟨hret, ?_, hrun, ?_⟩
  · intro n
    rw [hret n, hret (n + 1)]
    push_cast
    omega
  · intro t
    rw [hrun t]
    exact ⟨rfl, rfl⟩

/-- C4: for every `n ≥ 0`, `RecursiveFactorial n` is `n` factorial. -/
theorem recursiveFactorial_spec (n : Int) (h : 0 ≤ n) :
    RecursiveFactorial n = (Nat.factorial n.toNat : Int) := by
  have hk := recursiveFactorial_nat n.toNat
  rwa [Int.toNat_of_nonneg h] at hk

/-- C4 witness: the theorem applied at 5, where the factorial is 120. -/
theorem recursiveFactorial_witness :
    (0 : Int) ≤ 5 ∧ RecursiveFactorial 5 = (Nat.factorial (Int.toNat 5) : Int) :=
  ⟨by decide, recursiveFactorial_spec 5 (by decide)⟩

/-- C5: the producer sends exactly 10, 20, 30, 40, 50 in order, the
channel ends closed, the range loop of the consumer receives exactly those
five values in the same order and terminates (it returns a value rather
than blocking, because the channel has been closed), and the buffer never
holds more than the channel capacity 5 at any point of the production. -/
theorem rangeOverChannel_spec :
    producerSends = [10, 20, 30, 40, 50]
    ∧ afterProducer.closed = true
    ∧ RangeOverChannel = some [10, 20, 30, 40, 50]
    ∧ (∀ k : Nat,
        ((producerSends.take k).foldl chanSend chanInit).buf.length ≤ chanCap) := by
  refine ⟨by decide, by decide, by decide, ?_⟩
  intro k
  rw [foldl_chanSend_buf]
  simp [chanInit, chanCap]
  right
  decide

/-- C6: every call to `DemonstrateScope` increments `GlobalCounter` by
exactly one and leaves `globalMessage` untouched (the in-body assignment
only creates a shadowing local), so after any number of calls starting
from package initialisation, `globalMessage` still holds
"This is a package-level variable" and `GlobalCounter` equals the number
of calls. -/
theorem demonstrateScope_spec :
    (∀ s : FunctionsPkgState,
        (DemonstrateScope s).GlobalCounter = s.GlobalCounter + 1
        ∧ (DemonstrateScope s).globalMessage = s.globalMessage)
    ∧ (∀ n : Nat,
        (runDemonstrateScope n).globalMessage = "This is a package-level variable"
        ∧ (runDemonstrateScope n).GlobalCounter = (n : Int)) := by
  have hstep : ∀ s : FunctionsPkgState,
      (DemonstrateScope s).GlobalCounter = s.GlobalCounter + 1
      ∧ (DemonstrateScope s).globalMessage = s.globalMessage := by
    intro s
    exact ⟨rfl, rfl⟩
  refine ⟨hstep, ?_⟩
  intro n
  induction n with
  | zero => exact ⟨rfl, rfl⟩
  | succ n ih =>
    have h1 := (hstep (runDemonstrateScope n)).1
    have h2 := (hstep (runDemonstrateScope n)).2
    constructor
    · rw [runDemonstrateScope, h2, ih.1]
    · rw [runDemonstrateScope, h1, ih.2]
      push_cast
      ring

/-- C7: assigning a Go array copies it, so after
`copyOfPrimes := primes; copyOfPrimes[0] = 100` the original `primes` is
unchanged; passing an array by value to `modifyArrayCopy` leaves the
array of the caller unchanged; `modifyArrayPointer` through a pointer changes
element 0 of the original array to 999 and nothing else. -/
theorem array_value_semantics_spec :
    arrayBasicsCopyDemo.1 = [2, 3, 5, 7, 11]
    ∧ arrayBasicsCopyDemo.2 = [100, 3, 5, 7, 11]
    ∧ (∀ caller : List Int, afterModifyArrayCopyCall caller = caller)
    ∧ (∀ caller : List Int, 0 < caller.length →
        (afterModifyArrayPointerCall caller)[0]? = some 999)
    ∧ (∀ caller : List Int, ∀ i : Nat, i ≠ 0 →
        (afterModifyArrayPointerCall caller)[i]? = caller[i]?) := by
  refine ⟨by decide, by decide, ?_, ?_, ?_⟩
  · intro caller
    rfl
  · intro caller h
    simp [afterModifyArrayPointerCall, modifyArrayBody, List.getElem?_set_self h]
  · intro caller i hi
    simp [afterModifyArrayPointerCall, modifyArrayBody,
      List.getElem?_set_ne (Ne.symm hi)]

/-- C7 witness: the theorem applied to a concrete caller array. -/
theorem array_value_semantics_witness :
    afterModifyArrayCopyCall [42, 0, 0] = [42, 0, 0]
    ∧ (afterModifyArrayPointerCall [42, 0, 0])[0]? = some 999
    ∧ (afterModifyArrayPointerCall [42, 0, 0])[1]? = ([42, 0, 0] : List Int)[1]? :=
  ⟨array_value_semantics_spec.2.2.1 [42, 0, 0],
   array_value_semantics_spec.2.2.2.1 [42, 0, 0] (by decide),
   array_value_semantics_spec.2.2.2.2 [42, 0, 0] 1 (by decide)⟩

/-- C8: `AllOperations x y` panics (modelled `none`) exactly when `y = 0`,
and for `y ≠ 0` returns exactly the five values
`(x + y, x - y, x * y, x / y, x % y)` of Go arithmetic. -/
theorem allOperations_spec (x y : Int) :
    (AllOperations x y = none ↔ y = 0)
    ∧ (y ≠ 0 →
        AllOperations x y = some (x + y, x - y, x * y, x.tdiv y, x.tmod y)) := by
  constructor
  · constructor
    · intro h
      by_contra hy
      simp [AllOperations, hy] at h
    · intro h
      simp [AllOperations, h]
  · intro hy
    simp [AllOperations, hy]

/-- C8 witness: the theorem applied at `(17, 5)`. -/
theorem allOperations_witness :
    AllOperations 17 5 = some (22, 12, 85, 3, 2) := by
  have h := (allOperations_spec 17 5).2 (by decide)
  rw [h]
  decide

/-- C9: `RecursiveFactorial` is total (it is a well-founded Lean
function, each recursive call strictly decreasing `n.toNat`), returns 1
immediately for every `n ≤ 1` — negative inputs included — and for
`n > 1` satisfies the recursion `n * RecursiveFactorial (n - 1)`. -/
theorem recursiveFactorial_total (n : Int) :
    (n ≤ 1 → RecursiveFactorial n = 1)
    ∧ (1 < n → RecursiveFactorial n = n * RecursiveFactorial (n - 1)) := by
  constructor
  · intro h
    rw [RecursiveFactorial]
    simp [h]
  · intro h
    rw [RecursiveFactorial, if_neg (by omega)]

/-- C9 witness: the theorem applied at `-5` and at `3`. -/
theorem recursiveFactorial_total_witness :
    RecursiveFactorial (-5) = 1 ∧ RecursiveFactorial 3 = 3 * RecursiveFactorial 2 :=
  ⟨(recursiveFactorial_total (-5)).1 (by decide),
   (recursiveFactorial_total 3).2 (by decide)⟩

/-- C10: `Add` (value receiver) returns `a + b` and leaves the callers own
struct — in particular `LastResult` — unchanged, while `AddAndStore`
(pointer receiver) returns `a + b` and stores it in `LastResult`, after
which `GetLastResult` returns that stored value. -/
theorem calculator_methods_spec (c : Calculator) (a b : Int) :
    (c.Add a b).1 = a + b
    ∧ (c.Add a b).2 = c
    ∧ (c.AddAndStore a b).1 = a + b
    ∧ ((c.AddAndStore a b).2).LastResult = a + b
    ∧ ((c.AddAndStore a b).2).GetLastResult = a + b :=
  ⟨rfl, rfl, rfl, rfl, rfl⟩
